import Mathlib

/-!
# tkDocViewer — verification of the rendering pipeline specification

Shallow embedding of `src/tkdocviewer` (page-list resolver, rendering
thread event traces, backend temp-file cleanup, Ghostscript version
query, executable discovery), with theorems settling the spec claims.

Python strings are modelled as `List Char` (ASCII discipline); machine
integers as `Int`/`Nat`; fallible calls as `Except`/`Option`.
-/

/- ------------------------------------------------------------------ -/
/- Python string primitives used by GhostscriptThread._parse_page_list -/
/- ------------------------------------------------------------------ -/

/-- Model of Python `str.strip()`: drop whitespace at both ends. -/
def pyStrip (s : List Char) : List Char :=
  ((s.dropWhile Char.isWhitespace).reverse.dropWhile Char.isWhitespace).reverse

/-- Fuel-driven worker for `pyReplace`.  Each step consumes at least one
character of the input whenever the pattern is nonempty, so fuel
`s.length` is always sufficient; the fuel-exhausted branch is
unreachable for the nonempty patterns `" "` and `"end"` used below. -/
def pyReplaceAux (pat rep : List Char) : Nat → List Char → List Char
  | 0, s => s
  | _ + 1, [] => []
  | fuel + 1, x :: xs =>
    if pat.isPrefixOf (x :: xs) then
      rep ++ pyReplaceAux pat rep fuel ((x :: xs).drop pat.length)
    else
      x :: pyReplaceAux pat rep fuel xs

/-- Model of Python `str.replace(pat, rep)`: left-to-right,
non-overlapping replacement of every occurrence. -/
def pyReplace (pat rep s : List Char) : List Char :=
  pyReplaceAux pat rep s.length s

/-- Model of Python `str.split(sep)` for a single-character separator:
`"".split(",") == [""]`, and separators delimit (possibly empty) fields. -/
def pySplitChar (sep : Char) : List Char → List (List Char)
  | [] => [[]]
  | x :: xs =>
    let rest := pySplitChar sep xs
    if x = sep then [] :: rest
    else
      match rest with
      | t :: ts => (x :: t) :: ts
      | [] => [[x]]

/-- Model of Python `str.isdigit()` (ASCII discipline): nonempty and
every character a decimal digit. -/
def pyIsDigit (s : List Char) : Bool :=
  !s.isEmpty && s.all Char.isDigit

/-- Value of an all-digit character list, as computed by Python `int`. -/
def digitsToNat (s : List Char) : Nat :=
  s.foldl (fun acc c => 10 * acc + (c.toNat - 48)) 0

/-- Model of Python `int(s)` restricted to the shapes that can appear
here: optional single sign followed by one or more digits; everything
else raises `ValueError`, modelled as `none`. -/
def pyInt? (s : List Char) : Option Int :=
  match s with
  | [] => none
  | c :: rest =>
    if c = '-' then
      if !rest.isEmpty && rest.all Char.isDigit then some (-(digitsToNat rest : Int)) else none
    else if c = '+' then
      if !rest.isEmpty && rest.all Char.isDigit then some ((digitsToNat rest : Int)) else none
    else if (c :: rest).all Char.isDigit then some ((digitsToNat (c :: rest) : Int)) else none

/-- Model of Python `range(a, b + 1)` materialised as a list:
`a, a+1, ..., b` when `a ≤ b`, empty otherwise. -/
def pyRangeIncl (a b : Int) : List Int :=
  (List.range (b + 1 - a).toNat).map (fun i : Nat => a + (i : Int))

/- ------------------------------------------------------------------ -/
/- GhostscriptThread._parse_page_list (src/tkdocviewer/rendering.py)   -/
/- ------------------------------------------------------------------ -/

/-- The `pages` argument accepted by `_parse_page_list`: absent
(`None`), a string expression, a single integer, or an explicit
integer sequence. -/
inductive PageSelector where
  | absent
  | str (s : String)
  | single (n : Int)
  | seq (l : List Int)

/-- Embedding of `start, end = map(int, item.split("-"))`:
succeeds only when splitting on `-` yields exactly two integer
fields; any `ValueError` during unpacking is caught by the caller. -/
def parseRange? (item : List Char) : Option (Int × Int) :=
  match pySplitChar '-' item with
  | [a, b] =>
    match pyInt? a, pyInt? b with
    | some x, some y => some (x, y)
    | _, _ => none
  | _ => none

/-- One comma-separated token of the page-list string, as processed by
the loop body in `_parse_page_list`: a bare digit string is one page;
otherwise a token containing `-` is tried as a range (`ValueError`
silently dropped); anything else contributes nothing. -/
def parseToken (item : List Char) : List Int :=
  if pyIsDigit item then
    [(digitsToNat item : Int)]
  else if item.contains '-' then
    match parseRange? item with
    | some (a, b) => pyRangeIncl a b
    | none => []
  else []

/-- The normalisation pipeline of `_parse_page_list`:
`pages.strip().lower().replace(" ", "").replace("end", str(pc))`. -/
def normalizePages (s : String) (pc : Nat) : List Char :=
  pyReplace ['e', 'n', 'd'] (toString pc).data
    (pyReplace [' '] [] ((pyStrip s.data).map Char.toLower))

/-- Embedding of `GhostscriptThread._parse_page_list`, with the page count `pc`
(the result of `self.gs.page_count()`) passed explicitly. -/
def parse_page_list (pages : PageSelector) (pc : Nat) : List Int :=
  let display : List Int :=
    match pages with
    | PageSelector.str s =>
      ((pySplitChar ',' (normalizePages s pc)).map parseToken).flatten
    | PageSelector.single n => [n]
    | PageSelector.seq l => l
    | PageSelector.absent => (List.range pc).map (fun i : Nat => (i : Int) + 1)
  display.filter (fun page => decide (1 ≤ page ∧ page ≤ (pc : Int)))

/- ------------------------------------------------------------------ -/
/- GhostscriptThread rendering traces (src/tkdocviewer/rendering.py)   -/
/- ------------------------------------------------------------------ -/

/-- An item placed on the worker-to-consumer queue by
`GhostscriptThread`: a rendered page payload (`self.queue.put(page_data)`),
the terminal `None` sentinel, or a `BackendError` message pushed by
`_push_error`. -/
inductive QItem where
  | data (payload : Int)
  | done
  | error (msg : String)
deriving DecidableEq

/-- Embedding of `GhostscriptThread._render_pages`: iterate the resolved pages; at
each iteration first check the canceler and `break` if it is set, else
call `render_page` and enqueue the payload.  The canceler is a
monotone flag, modelled by `fuel` = the number of checks that still
read false (the flag reads true from check `fuel + 1` on, forever).
An exception from `render_page` aborts the loop and propagates; the
returned pair is (queued items, propagated exception if any). -/
def render_pages (render : Int → Except String Int) :
    List Int → Nat → List QItem × Option String
  | [], _ => ([], none)
  | _ :: _, 0 => ([], none)
  | p :: rest, fuel + 1 =>
    match render p with
    | Except.error e => ([], some e)
    | Except.ok d =>
      let r := render_pages render rest fuel
      (QItem.data d :: r.1, r.2)

/-- Embedding of `GhostscriptThread._render_pdf`: inside `try`, resolve the page
list (which first calls `self.gs.page_count()`, modelled by the
`Except`-valued `pageCount`, covering a failing backend/page-count
query), render the pages, then unconditionally `queue.put(None)`;
any exception is caught and forwarded as exactly one `BackendError`
via `_push_error`.  The result is the full sequence of queue items
for the run. -/
def render_pdf (pageCount : Except String Nat) (render : Int → Except String Int)
    (pages : PageSelector) (fuel : Nat) : List QItem :=
  match pageCount with
  | Except.error e => [QItem.error e]
  | Except.ok pc =>
    match render_pages render (parse_page_list pages pc) fuel with
    | (items, none) => items ++ [QItem.done]
    | (items, some e) => items ++ [QItem.error e]

/-- Whether a queue item is an error message. -/
def isErrorItem : QItem → Bool
  | QItem.error _ => true
  | _ => false

/- ------------------------------------------------------------------ -/
/- Backend.__del__ (src/tkdocviewer/backends/shared.py)                -/
/- ------------------------------------------------------------------ -/

/-- The loop of `Backend.__del__`, which iterates over `temp_files`
by position while calling `os.remove(path)` and
`self.temp_files.remove(path)` on each visited entry — i.e. it
mutates the list it is iterating over.  `files` is `self.temp_files`,
`fs` the set of paths existing on disk (as a list), `i` the iteration
index.  The Python for-loop stops as soon as the index reaches the
(shrinking) list length.  Each step shortens the list, so fuel
`files.length + 1` always suffices; the zero-fuel branch is
unreachable from `backend_del`. -/
def delLoop : Nat → List String → List String → Nat → List String × List String
  | 0, files, fs, _ => (files, fs)
  | fuel + 1, files, fs, i =>
    if h : i < files.length then
      let path := files.get ⟨i, h⟩
      delLoop fuel (files.erase path) (fs.erase path) (i + 1)
    else (files, fs)

/-- Embedding of `Backend.__del__`: returns (remaining `temp_files` entries,
remaining on-disk files) after the destructor runs. -/
def backend_del (files fs : List String) : List String × List String :=
  delLoop (files.length + 1) files fs 0

/- ------------------------------------------------------------------ -/
/- GhostscriptBackend.gs_version (src/tkdocviewer/backends/...)        -/
/- ------------------------------------------------------------------ -/

/-- Outcome of `check_output([gs_exe, "--version"])`: normal output,
an `OSError` (executable missing or not launchable), or a
`CalledProcessError` (the process ran but exited nonzero). -/
inductive InvokeResult where
  | ok (output : String)
  | osError
  | calledProcessError (returncode : Int) (output : String)

/-- Python `s[:-1]`: the string minus its final character. -/
def pyDropLast (s : String) : String :=
  String.mk s.data.dropLast

/-- Embedding of `GhostscriptBackend.gs_version`: return the version output minus
the trailing newline; the `try` block catches only `OSError` (returning
`None`); any other exception — in particular `CalledProcessError` from
a nonzero exit — propagates to the caller (`Except.error`). -/
def gs_version (r : InvokeResult) : Except String (Option String) :=
  match r with
  | InvokeResult.ok out => Except.ok (some (pyDropLast out))
  | InvokeResult.osError => Except.ok none
  | InvokeResult.calledProcessError _ _ => Except.error "subprocess.CalledProcessError"

/- ------------------------------------------------------------------ -/
/- find_executable (src/tkdocviewer/backends/util.py)                  -/
/- ------------------------------------------------------------------ -/

/-- Model of `os.path.basename` (posix separators): the part after the
last `/`. -/
def pyBasename (p : String) : String :=
  (p.splitOn "/").getLastD p

/-- Model of `os.path.join(d, name)` for a separator-free `name`. -/
def pyJoin (d name : String) : String :=
  if d = "" then name
  else if d.endsWith "/" then d ++ name
  else d ++ "/" ++ name

/-- Whether `os.path.splitext` reports a nonempty extension: there is a
`.` beyond any leading dots. -/
def splitextHasExt (name : String) : Bool :=
  (name.data.dropWhile (fun c => c = '.')).contains '.'

/-- The candidate filename tried inside the loop: the basename of the
requested name, with `.exe` appended on Windows when it has no
extension. -/
def winName (isWin : Bool) (b : String) : String :=
  let name := pyBasename b
  if isWin && !splitextHasExt name then name ++ ".exe" else name

/-- Embedding of `if not search_dirs: search_dirs = os.getenv("PATH").split(os.pathsep)`:
a falsy `search_dirs` (absent or the empty list) falls back to the
directories of `$PATH` (`pathDirs`). -/
def effectiveDirs (searchDirs : Option (List String)) (pathDirs : List String) : List String :=
  match searchDirs with
  | none => pathDirs
  | some [] => pathDirs
  | some ds => ds

/-- Embedding of `find_executable(basenames, search_dirs)`: outer loop over search
directories, inner loop over basenames, returning the first candidate
path that is an existing file (`isfile`), else `None`. -/
def find_executable (isWin : Bool) (isfile : String → Bool) (basenames : List String)
    (searchDirs : Option (List String)) (pathDirs : List String) : Option String :=
  (effectiveDirs searchDirs pathDirs).findSome? (fun d =>
    basenames.findSome? (fun b =>
      let candidate := pyJoin d (winName isWin b)
      if isfile candidate then some candidate else none))

/- ------------------------------------------------------------------ -/
/- Spec-side definitions used for refinement claims                    -/
/- ------------------------------------------------------------------ -/

/-- One token, as the specification words it: a bare non-negative
integer is one page; two integers joined by a hyphen are an inclusive
ascending range expanded in order; anything else is silently dropped. -/
def specToken (tok : List Char) : List Int :=
  if pyIsDigit tok then
    [(digitsToNat tok : Int)]
  else
    match parseRange? tok with
    | some (a, b) =>
      if a ≤ b then (List.range (b - a + 1).toNat).map (fun i : Nat => a + (i : Int)) else []
    | none => []

/-- Textual resolution as the specification words it: lowercase, strip
whitespace, replace `end` with the page count, split on commas, expand
each token, and filter to `[1, page_count]`. -/
def resolveTextSpec (s : String) (pc : Nat) : List Int :=
  ((pySplitChar ',' (normalizePages s pc)).flatMap specToken).filter
    (fun v => decide (1 ≤ v ∧ v ≤ (pc : Int)))

/-- Executable discovery as the specification words it: list every
candidate full path in search order (directory-major, basename-minor)
and return the first one that exists. -/
def findExecutableSpec (isWin : Bool) (isfile : String → Bool) (basenames : List String)
    (searchDirs : Option (List String)) (pathDirs : List String) : Option String :=
  ((effectiveDirs searchDirs pathDirs).flatMap
    (fun d => basenames.map (fun b => pyJoin d (winName isWin b)))).find? isfile

/- ------------------------------------------------------------------ -/
/- Exception-instrumented page-list resolution (totality, claim C7)    -/
/- ------------------------------------------------------------------ -/

/-- A Python exception that could escape `_parse_page_list`. -/
inductive PyExc where
  | valueError
deriving DecidableEq

/-- The loop body of `_parse_page_list` with every potentially raising
operation made explicit: `int(item)` in the digit branch may raise
`ValueError` (uncaught there), while the range branch wraps its
`ValueError` in `try`/`except` and drops the token. -/
def parseTokenE (item : List Char) : Except PyExc (List Int) :=
  if pyIsDigit item then
    match pyInt? item with
    | some n => Except.ok [n]
    | none => Except.error PyExc.valueError
  else if item.contains '-' then
    Except.ok
      (match parseRange? item with
       | some (a, b) => pyRangeIncl a b
       | none => [])
  else Except.ok []

/-- The token loop of `_parse_page_list`, propagating any uncaught
exception from a token. -/
def tokenLoopE : List (List Char) → Except PyExc (List Int)
  | [] => Except.ok []
  | t :: ts =>
    match parseTokenE t with
    | Except.error e => Except.error e
    | Except.ok x =>
      match tokenLoopE ts with
      | Except.error e => Except.error e
      | Except.ok rest => Except.ok (x ++ rest)

/-- String-selector resolution with explicit exception propagation. -/
def parse_page_listE (s : String) (pc : Nat) : Except PyExc (List Int) :=
  match tokenLoopE (pySplitChar ',' (normalizePages s pc)) with
  | Except.error e => Except.error e
  | Except.ok l => Except.ok (l.filter (fun v => decide (1 ≤ v ∧ v ≤ (pc : Int))))

/- ------------------------------------------------------------------ -/
/- RenderingThread event stream (claim C4)                             -/
/- ------------------------------------------------------------------ -/

/-- A render event on the channel of the event-emitting rendering
thread (the `DocumentStarted`/`PageCount`/`PageStarted` classes that
`widget.py` imports from `.rendering`). -/
inductive REvent where
  | documentStarted
  | pageCount (n : Nat)
  | pageStarted (p : Int)
  | pageData (d : Int)
  | error (msg : String)
  | done
deriving DecidableEq

/-- Modelled from the spec: the per-page iteration of the
`RenderingThread` imported by `widget.py` from `.rendering`, which is
not under `src/` — for each resolved page, in order: if the
cancellation flag is set, stop immediately with no further events;
otherwise emit `PageStarted`, call `render_page`, and emit the payload
as `PageData`; an exhausted sequence emits `Done`; a `render_page`
failure emits one `Error` and stops. -/
def specIterate (render : Int → Except String Int) :
    List Int → Nat → List REvent
  | [], _ => [REvent.done]
  | _ :: _, 0 => []
  | p :: rest, fuel + 1 =>
    REvent.pageStarted p ::
      match render p with
      | Except.error e => [REvent.error e]
      | Except.ok d => REvent.pageData d :: specIterate render rest fuel

/-- Modelled from the spec: a full run of the event-emitting
`RenderingThread` (absent from `src/`) — backend construction and the
page-count query may fail (one `Error`, stop); otherwise emit
`DocumentStarted` then `PageCount(n)`, resolve the page selector
against `n`, and iterate the pages. -/
def specRun (pageCount : Except String Nat) (render : Int → Except String Int)
    (sel : PageSelector) (fuel : Nat) : List REvent :=
  match pageCount with
  | Except.error e => [REvent.error e]
  | Except.ok pc =>
    REvent.documentStarted :: REvent.pageCount pc ::
      specIterate render (parse_page_list sel pc) fuel

/- ------------------------------------------------------------------ -/
/- Helper lemmas                                                       -/
/- ------------------------------------------------------------------ -/

/-- Splitting on a character that does not occur returns the whole
string as the single field. -/
theorem pySplitChar_eq_single {c : Char} {s : List Char} (h : s.contains c = false) :
    pySplitChar c s = [s] := by
  induction s with
  | nil => rfl
  | cons x xs ih =>
    simp only [List.contains_cons, Bool.or_eq_false_iff, beq_eq_false_iff_ne, ne_eq] at h
    rw [pySplitChar, ih h.2]
    have hx : ¬ x = c := fun hh => h.1 hh.symm
    simp [hx]

/-- A token without a hyphen cannot parse as a range. -/
theorem parseRange?_eq_none {item : List Char} (h : item.contains '-' = false) :
    parseRange? item = none := by
  rw [parseRange?, pySplitChar_eq_single h]

/-- In the code, `range(start, end + 1)` is exactly the inclusive
ascending range of the spec, empty when the bounds are descending. -/
theorem pyRangeIncl_eq_ascending (a b : Int) :
    pyRangeIncl a b
      = if a ≤ b then (List.range (b - a + 1).toNat).map (fun i : Nat => a + (i : Int)) else [] := by
  unfold pyRangeIncl
  by_cases hab : a ≤ b
  · rw [if_pos hab]
    have ht : (b + 1 - a).toNat = (b - a + 1).toNat := by omega
    rw [ht]
  · rw [if_neg hab]
    have hz : (b + 1 - a).toNat = 0 := by omega
    rw [hz]
    rfl

/-- The loop body of `_parse_page_list` handles one token exactly as
the specification describes it. -/
theorem parseToken_eq_specToken (tok : List Char) : parseToken tok = specToken tok := by
  unfold parseToken specToken
  by_cases hd : pyIsDigit tok = true
  · simp [hd]
  · simp only [hd, if_false, Bool.not_eq_true] at *
    by_cases hy : tok.contains '-' = true
    · simp only [hd, hy, if_true, if_false]
      cases hr : parseRange? tok with
      | none => rfl
      | some ab =>
        obtain ⟨a, b⟩ := ab
        exact pyRangeIncl_eq_ascending a b
    · simp only [Bool.not_eq_true] at hy
      simp [hd, hy, parseRange?_eq_none hy]

/- ------------------------------------------------------------------ -/
/- Claim theorems                                                      -/
/- ------------------------------------------------------------------ -/

/-- C1 (counterexample): at page count 6 the selector
`"1-2,5,8,12-end"` resolves to `[1, 2, 5]`, not the claimed
`[1, 2, 5, 6]` — `"12-end"` becomes `"12-6"`, a descending range that
expands to nothing. -/
theorem c1_counterexample :
    parse_page_list (PageSelector.str "1-2,5,8,12-end") 6 = [1, 2, 5]
    ∧ parse_page_list (PageSelector.str "1-2,5,8,12-end") 6 ≠ [1, 2, 5, 6] := by
  constructor <;> decide

/-- C1 (amended): textual resolution lowercases, strips whitespace,
replaces `end` with the page count, splits on commas, accepts bare
integers and hyphen ranges expanded in ascending order, and filters to
`[1, page_count]`; in particular `resolve("1-2,5,8,12-end", 6) = [1, 2, 5]`. -/
theorem c1_text_resolution :
    (∀ (s : String) (pc : Nat),
        parse_page_list (PageSelector.str s) pc = resolveTextSpec s pc)
    ∧ parse_page_list (PageSelector.str "1-2,5,8,12-end") 6 = [1, 2, 5] := by
  constructor
  · intro s pc
    unfold parse_page_list resolveTextSpec
    rw [List.flatMap_def]
    have h : parseToken = specToken := funext parseToken_eq_specToken
    rw [h]
  · decide

/-- When every `render_page` call succeeds, the loop enqueues the
payloads of the first `k` pages (`k` = checks that read false) and
propagates no exception. -/
theorem render_pages_all_ok (f : Int → Int) :
    ∀ (l : List Int) (k : Nat),
      render_pages (fun p => Except.ok (f p)) l k
        = (((l.take k).map (fun p => QItem.data (f p))), none) := by
  intro l
  induction l with
  | nil => intro k; cases k <;> rfl
  | cons p rest ih =>
    intro k
    cases k with
    | zero => rfl
    | succ k => simp [render_pages, ih k]

/-- C2 (counterexample): cancelling before any page renders still
enqueues the `None` sentinel — `_render_pdf` runs `queue.put(None)`
after the cancelled loop returns, so the claimed "no Done" is false. -/
theorem c2_counterexample :
    QItem.done ∈ render_pdf (Except.ok 1) (fun p => Except.ok p) PageSelector.absent 0 := by
  decide

/-- C2 (amended): if the cancellation flag is set before the check at
the boundary of page `k + 1`, the run enqueues exactly the payloads of
the first `k` pages (this version emits no PageStarted events) and
then the terminal `None` sentinel — the sentinel is emitted on the
cancellation path too. -/
theorem c2_cancel_trace (f : Int → Int) (sel : PageSelector) (pc k : Nat)
    (_hk : k ≤ (parse_page_list sel pc).length) :
    render_pdf (Except.ok pc) (fun p => Except.ok (f p)) sel k
      = ((parse_page_list sel pc).take k).map (fun p => QItem.data (f p)) ++ [QItem.done] := by
  have hstep : render_pdf (Except.ok pc) (fun p => Except.ok (f p)) sel k
      = (match render_pages (fun p => Except.ok (f p)) (parse_page_list sel pc) k with
         | (items, none) => items ++ [QItem.done]
         | (items, some e) => items ++ [QItem.error e]) := rfl
  rw [hstep, render_pages_all_ok]

theorem c2_cancel_trace_witness :
    1 ≤ (parse_page_list PageSelector.absent 2).length ∧
      render_pdf (Except.ok 2) (fun p => Except.ok (id p)) PageSelector.absent 1
        = ((parse_page_list PageSelector.absent 2).take 1).map (fun p => QItem.data (id p))
            ++ [QItem.done] :=
  ⟨by decide, c2_cancel_trace id PageSelector.absent 2 1 (by decide)⟩

/-- Every item the page loop enqueues is a page payload. -/
theorem render_pages_items_are_data (render : Int → Except String Int) :
    ∀ (l : List Int) (k : Nat), ∀ x ∈ (render_pages render l k).1, ∃ d, x = QItem.data d := by
  intro l
  induction l with
  | nil => intro k x hx; cases k <;> simp [render_pages] at hx
  | cons p rest ih =>
    intro k x hx
    cases k with
    | zero => simp [render_pages] at hx
    | succ k =>
      simp only [render_pages] at hx
      cases hr : render p with
      | error e2 => rw [hr] at hx; simp at hx
      | ok d =>
        rw [hr] at hx
        simp only [List.mem_cons] at hx
        rcases hx with h | h
        · exact ⟨d, h⟩
        · exact ih k x h

/-- C3: a failing `render_page` (or a failing backend/page-count
query) yields the payloads rendered before the failure, then exactly
one error item carried as data on the queue, and no `None` sentinel. -/
theorem c3_error_trace (pc : Nat) (render : Int → Except String Int) (sel : PageSelector)
    (fuel : Nat) (items : List QItem) (e : String)
    (h : render_pages render (parse_page_list sel pc) fuel = (items, some e)) :
    render_pdf (Except.ok pc) render sel fuel = items ++ [QItem.error e]
    ∧ (∀ x ∈ items, ∃ d, x = QItem.data d)
    ∧ (items ++ [QItem.error e]).countP isErrorItem = 1
    ∧ QItem.done ∉ items ++ [QItem.error e]
    ∧ (∀ msg : String, render_pdf (Except.error msg) render sel fuel = [QItem.error msg]) := by
  have hdata : ∀ x ∈ items, ∃ d, x = QItem.data d := by
    intro x hx
    have h2 := render_pages_items_are_data render (parse_page_list sel pc) fuel x
    rw [h] at h2
    exact h2 hx
  refine ⟨?_, hdata, ?_, ?_, fun msg => rfl⟩
  · have hstep : render_pdf (Except.ok pc) render sel fuel
        = (match render_pages render (parse_page_list sel pc) fuel with
           | (items, none) => items ++ [QItem.done]
           | (items, some e) => items ++ [QItem.error e]) := rfl
    rw [hstep, h]
  · rw [List.countP_append]
    have hz : items.countP isErrorItem = 0 := by
      rw [List.countP_eq_zero]
      intro a ha
      obtain ⟨d, rfl⟩ := hdata a ha
      simp [isErrorItem]
    rw [hz]
    rfl
  · intro hmem
    rw [List.mem_append] at hmem
    rcases hmem with hm | hm
    · obtain ⟨d, hd⟩ := hdata _ hm
      exact QItem.noConfusion hd
    · simp at hm

theorem c3_error_trace_witness :
    render_pages (fun p => if p = 3 then Except.error "boom" else Except.ok p)
        (parse_page_list PageSelector.absent 5) 9
      = ([QItem.data 1, QItem.data 2], some "boom")
    ∧ render_pdf (Except.ok 5) (fun p => if p = 3 then Except.error "boom" else Except.ok p)
        PageSelector.absent 9
      = [QItem.data 1, QItem.data 2] ++ [QItem.error "boom"] :=
  ⟨by decide,
    (c3_error_trace 5 (fun p => if p = 3 then Except.error "boom" else Except.ok p)
      PageSelector.absent 9 [QItem.data 1, QItem.data 2] "boom" (by decide)).1⟩

/-- Per-page iteration emits only page-start, page-payload, error and
done events. -/
theorem specIterate_events (render : Int → Except String Int) :
    ∀ (l : List Int) (fuel : Nat), ∀ e ∈ specIterate render l fuel,
      e ≠ REvent.documentStarted ∧ ∀ m, e ≠ REvent.pageCount m := by
  intro l
  induction l with
  | nil =>
    intro fuel e he
    cases fuel <;>
      · simp only [specIterate, List.mem_singleton] at he
        subst he
        exact ⟨by simp, by simp⟩
  | cons p rest ih =>
    intro fuel e he
    cases fuel with
    | zero => simp [specIterate] at he
    | succ fuel =>
      simp only [specIterate, List.mem_cons] at he
      rcases he with rfl | he
      · exact ⟨by simp, by simp⟩
      · cases hr : render p with
        | error msg =>
          rw [hr] at he
          simp only [List.mem_singleton] at he
          subst he
          exact ⟨by simp, by simp⟩
        | ok d =>
          rw [hr] at he
          simp only [List.mem_cons] at he
          rcases he with rfl | he
          · exact ⟨by simp, by simp⟩
          · exact ih fuel e he

/-- C4: every run that reaches the backend-ready stage starts with
`DocumentStarted` then `PageCount(n)`, and no later event is another
`DocumentStarted` or `PageCount`. -/
theorem c4_event_order (pc : Nat) (render : Int → Except String Int) (sel : PageSelector)
    (fuel : Nat) :
    ∃ rest, specRun (Except.ok pc) render sel fuel
        = REvent.documentStarted :: REvent.pageCount pc :: rest
      ∧ ∀ e ∈ rest, e ≠ REvent.documentStarted ∧ ∀ m, e ≠ REvent.pageCount m := by
  exact ⟨specIterate render (parse_page_list sel pc) fuel, rfl,
    specIterate_events render (parse_page_list sel pc) fuel⟩

/-- C5: `Backend.__del__` iterates over `temp_files` while removing
from it, so with the two recorded temp files `["a", "b"]` it deletes
only `"a"`: `"b"` survives both in the list and on disk. -/
theorem c5_del_skips_file :
    backend_del ["a", "b"] ["a", "b"] = (["b"], ["b"])
    ∧ "b" ∈ (backend_del ["a", "b"] ["a", "b"]).2 := by
  constructor <;> decide

/-- C6: an explicit sequence selector keeps exactly the in-bounds
elements, in order, duplicates preserved (it is a sublist with the
same multiplicity for every in-bounds value); a single-integer
selector yields that page iff it is in bounds. -/
theorem c6_seq_verbatim (l : List Int) (pc : Nat) (n v : Int) :
    List.Sublist (parse_page_list (PageSelector.seq l) pc) l
    ∧ (parse_page_list (PageSelector.seq l) pc).count v
        = (if 1 ≤ v ∧ v ≤ (pc : Int) then l.count v else 0)
    ∧ parse_page_list (PageSelector.single n) pc
        = (if 1 ≤ n ∧ n ≤ (pc : Int) then [n] else []) := by
  refine ⟨List.filter_sublist l, ?_, ?_⟩
  · by_cases hv : 1 ≤ v ∧ v ≤ (pc : Int)
    · rw [if_pos hv]
      unfold parse_page_list
      exact List.count_filter (by simpa using hv)
    · rw [if_neg hv]
      rw [List.count_eq_zero]
      intro hmem
      unfold parse_page_list at hmem
      rw [List.mem_filter] at hmem
      exact hv (by simpa using hmem.2)
  · by_cases hn : 1 ≤ n ∧ n ≤ (pc : Int)
    · rw [if_pos hn]
      unfold parse_page_list
      simp [hn]
    · rw [if_neg hn]
      unfold parse_page_list
      simp [hn]

/-- A string passing `isdigit` always converts via `int` without a
`ValueError`. -/
theorem pyInt?_of_digits {s : List Char} (h : pyIsDigit s = true) :
    pyInt? s = some ((digitsToNat s : Int)) := by
  unfold pyIsDigit at h
  cases s with
  | nil => simp at h
  | cons c rest =>
    rw [Bool.and_eq_true] at h
    have hall : (c :: rest).all Char.isDigit = true := h.2
    have hc : c.isDigit = true := by
      rw [List.all_cons, Bool.and_eq_true] at hall
      exact hall.1
    have h1 : ¬ c = '-' := by
      intro hEq
      rw [hEq] at hc
      exact absurd hc (by decide)
    have h2 : ¬ c = '+' := by
      intro hEq
      rw [hEq] at hc
      exact absurd hc (by decide)
    unfold pyInt?
    simp [h1, h2, hall]

/-- The instrumented token parser never lets an exception escape, and
agrees with the pure embedding. -/
theorem parseTokenE_eq_ok (t : List Char) : parseTokenE t = Except.ok (parseToken t) := by
  unfold parseTokenE parseToken
  by_cases hd : pyIsDigit t = true
  · simp [hd, pyInt?_of_digits hd, digitsToNat]
  · rw [if_neg hd, if_neg hd]
    split <;> rfl

/-- The token loop never raises. -/
theorem tokenLoopE_eq_ok (ts : List (List Char)) :
    tokenLoopE ts = Except.ok ((ts.map parseToken).flatten) := by
  induction ts with
  | nil => rfl
  | cons t ts ih =>
    rw [tokenLoopE, parseTokenE_eq_ok, ih]
    simp

/-- C7: string-selector resolution is total — with every raising
operation made explicit it still returns `ok`, malformed tokens are
silently dropped, and `resolve("abc", N) = []` for every `N`. -/
theorem c7_resolution_total :
    (∀ (s : String) (pc : Nat),
        parse_page_listE s pc = Except.ok (parse_page_list (PageSelector.str s) pc))
    ∧ (∀ pc : Nat, parse_page_list (PageSelector.str "abc") pc = []) := by
  constructor
  · intro s pc
    unfold parse_page_listE
    rw [tokenLoopE_eq_ok]
    rfl
  · intro pc
    rfl

/-- C8 (counterexample): a version query where the engine runs but
exits nonzero is not swallowed — `gs_version` propagates the
`CalledProcessError` instead of returning `None`. -/
theorem c8_counterexample :
    gs_version (InvokeResult.calledProcessError 1 "gs: oops") ≠ Except.ok none
    ∧ (∃ e, gs_version (InvokeResult.calledProcessError 1 "gs: oops") = Except.error e) := by
  refine ⟨?_, ⟨"subprocess.CalledProcessError", rfl⟩⟩
  intro h
  exact Except.noConfusion h

/-- C8 (amended): `gs_version` returns the reported version minus the
trailing newline on success, returns none when the invocation fails
to launch (`OSError`), and propagates a nonzero-exit
`CalledProcessError` to the caller. -/
theorem c8_version_query (out : String) (rc : Int) (eo : String) :
    gs_version (InvokeResult.ok out) = Except.ok (some (pyDropLast out))
    ∧ gs_version InvokeResult.osError = Except.ok none
    ∧ gs_version (InvokeResult.calledProcessError rc eo)
        = Except.error "subprocess.CalledProcessError" :=
  ⟨rfl, rfl, rfl⟩

/-- The inner basename loop returns the first mapped candidate
accepted by the predicate. -/
theorem findSome?_if_map {α β : Type} (f : α → β) (p : β → Bool) :
    ∀ l : List α,
      l.findSome? (fun b => if p (f b) then some (f b) else none) = (l.map f).find? p := by
  intro l
  induction l with
  | nil => rfl
  | cons a as ih =>
    rw [List.map_cons]
    cases hp : p (f a) with
    | true =>
      rw [List.find?_cons_of_pos _ hp]
      rw [List.findSome?_cons_of_isSome]
      · simp [hp]
      · simp [hp]
    | false =>
      rw [List.find?_cons_of_neg _ (by simp [hp])]
      rw [List.findSome?_cons_of_isNone]
      · exact ih
      · simp [hp]

/-- C9: executable discovery returns exactly the first existing file
among the candidates enumerated directory-major then basename-minor
(with the Windows `.exe` adjustment), falling back to the `$PATH`
directories when no search directories are given. -/
theorem c9_find_executable (isWin : Bool) (isfile : String → Bool) (basenames : List String)
    (searchDirs : Option (List String)) (pathDirs : List String) :
    find_executable isWin isfile basenames searchDirs pathDirs
      = findExecutableSpec isWin isfile basenames searchDirs pathDirs := by
  unfold find_executable findExecutableSpec
  rw [List.find?_flatMap]
  exact congrArg (fun g => List.findSome? g (effectiveDirs searchDirs pathDirs))
    (funext fun d => findSome?_if_map (fun b => pyJoin d (winName isWin b)) isfile basenames)

/-- C10: an absent selector resolves to the full ascending page
sequence `[1, ..., N]`. -/
theorem c10_absent_all_pages (pc : Nat) (_h : 1 ≤ pc) :
    parse_page_list PageSelector.absent pc = (List.range' 1 pc).map (fun n : Nat => (n : Int)) := by
  have hstep : parse_page_list PageSelector.absent pc
      = ((List.range pc).map (fun i : Nat => (i : Int) + 1)).filter
          (fun page => decide (1 ≤ page ∧ page ≤ (pc : Int))) := rfl
  rw [hstep, List.filter_eq_self.mpr, List.range'_eq_map_range, List.map_map]
  · exact List.map_congr_left fun i _ => by simp only [Function.comp_apply]; push_cast; ring
  · intro a ha
    simp only [List.mem_map, List.mem_range] at ha
    obtain ⟨i, hi, rfl⟩ := ha
    rw [decide_eq_true_eq]
    omega

theorem c10_absent_all_pages_witness :
    1 ≤ 4 ∧ parse_page_list PageSelector.absent 4 = (List.range' 1 4).map (fun n : Nat => (n : Int)) :=
  ⟨by decide, c10_absent_all_pages 4 (by decide)⟩
